import Mathlib

/-!
Shallow embedding of the tiered Windows synchronization primitives in
`library/std/src/sys/windows/locks/` (tier selection, the three mutex
backends, the `Mutex` wrapper with its `held` flag, the condition variable,
the movable and static read/write locks, and the lazy `atomic_boxed_init`
installation protocol), together with proofs of the specified properties.

Machine-level conventions of the embedding:
- Threads are identified by `Nat`.
- A native operation that can suspend the calling thread forever in the
  modelled schedule (a contended `EnterCriticalSection`, a recursive
  `AcquireSRWLockExclusive`, a contended `WaitForSingleObject`) is modelled
  as returning `none` / `LockResult.blocked`.
- `panic!` is modelled as `LockResult.panicked msg s`, carrying the state at
  the moment of the panic so that side effects performed before the panic
  (for example the `unlock()` preceding the recursive-lock panic) are
  observable.
- The native host primitives themselves (`CRITICAL_SECTION`, `CreateMutex`
  handles, `SRWLOCK`, events) are external collaborators; their state
  machines here follow the boundary specification in the design document
  (recursive owner-tracked acquisition for critical sections and legacy
  mutexes, non-recursive deadlocking acquisition for SRW locks, broadcast
  pulse for manual-reset events).
-/

set_option autoImplicit false

namespace Rust9x

/-- Backend tier, mirroring `MutexKind` in `mutex/compat.rs`:
`SrwLock` (Modern, Win 7+), `CriticalSection` (Intermediate, NT 4+),
`Legacy` (`CreateMutex`). -/
inductive MutexKind where
  | SrwLock
  | CriticalSection
  | Legacy
  deriving DecidableEq, Repr

/-- Answers of the capability probe for the two optional entry points the
tier selector queries: `c::TryAcquireSRWLockExclusive::available()` and
`c::TryEnterCriticalSection::available()`. -/
structure Capabilities where
  tryAcquireSRWLockExclusiveAvailable : Bool
  tryEnterCriticalSectionAvailable : Bool
  deriving DecidableEq, Repr

/-- Embedding of `init` in `mutex/compat.rs`: the value stored into
`MUTEX_KIND` at startup, computed from the capability probe. -/
def init (c : Capabilities) : MutexKind :=
  if c.tryAcquireSRWLockExclusiveAvailable then .SrwLock
  else if c.tryEnterCriticalSectionAvailable then .CriticalSection
  else .Legacy

/-- Embedding of `CriticalSectionMutex` (critical_section_mutex.rs) after
`init()`: a `CRITICAL_SECTION` is owner-tracked and recursion-tolerant, so
its state is the owning thread (if any) and the recursion count
(`0` iff unowned). -/
structure CriticalSectionMutex where
  owner : Option Nat
  count : Nat
  deriving DecidableEq, Repr

namespace CriticalSectionMutex

/-- Freshly initialized critical section (`new()` followed by `init()`). -/
def new : CriticalSectionMutex := ⟨none, 0⟩

/-- Embedding of `CriticalSectionMutex::lock` (`EnterCriticalSection`) by
thread `t`: recursive acquisition by the owner succeeds, acquisition of a
section owned by another thread blocks. -/
def lock (t : Nat) (m : CriticalSectionMutex) : Option CriticalSectionMutex :=
  match m.owner with
  | none => some ⟨some t, 1⟩
  | some o => if o = t then some ⟨some o, m.count + 1⟩ else none

/-- Embedding of `CriticalSectionMutex::try_lock`
(`TryEnterCriticalSection(..) != 0`) by thread `t`: succeeds (recursively
for the owner) unless another thread owns the section. -/
def tryLock (t : Nat) (m : CriticalSectionMutex) : Bool × CriticalSectionMutex :=
  match m.owner with
  | none => (true, ⟨some t, 1⟩)
  | some o => if o = t then (true, ⟨some o, m.count + 1⟩) else (false, m)

/-- Embedding of `CriticalSectionMutex::unlock` (`LeaveCriticalSection`):
decrements the recursion count, releasing ownership at zero. -/
def unlock (m : CriticalSectionMutex) : CriticalSectionMutex :=
  if m.count ≤ 1 then ⟨none, 0⟩ else ⟨m.owner, m.count - 1⟩

end CriticalSectionMutex

/-- Embedding of `LegacyMutex` (legacy_mutex.rs) after `init()`: a mutex
created by `CreateMutexA` is owner-tracked and recursion-tolerant, like a
critical section, so the modelled state is the same shape. -/
structure LegacyMutex where
  owner : Option Nat
  count : Nat
  deriving DecidableEq, Repr

namespace LegacyMutex

/-- Freshly initialized legacy mutex (`new()` followed by `init()`). -/
def new : LegacyMutex := ⟨none, 0⟩

/-- Embedding of `LegacyMutex::lock`
(`WaitForSingleObject(handle, INFINITE)`): returns `WAIT_OBJECT_0`
immediately for the owner (recursive acquisition) or an unowned mutex, and
blocks while another thread owns it. -/
def lock (t : Nat) (m : LegacyMutex) : Option LegacyMutex :=
  match m.owner with
  | none => some ⟨some t, 1⟩
  | some o => if o = t then some ⟨some o, m.count + 1⟩ else none

/-- Embedding of `LegacyMutex::try_lock` (`WaitForSingleObject(handle, 0)`,
`WAIT_OBJECT_0` mapped to true and `WAIT_TIMEOUT` to false). -/
def tryLock (t : Nat) (m : LegacyMutex) : Bool × LegacyMutex :=
  match m.owner with
  | none => (true, ⟨some t, 1⟩)
  | some o => if o = t then (true, ⟨some o, m.count + 1⟩) else (false, m)

/-- Embedding of `LegacyMutex::unlock` (`ReleaseMutex`): decrements the
recursion count, releasing ownership at zero. -/
def unlock (m : LegacyMutex) : LegacyMutex :=
  if m.count ≤ 1 then ⟨none, 0⟩ else ⟨m.owner, m.count - 1⟩

end LegacyMutex

/-- Embedding of `SrwLockMutex` (srwlock_mutex.rs): the `SRWLOCK` word used
only in exclusive mode; `locked = true` means exclusively acquired.
`AcquireSRWLockExclusive` is not owner-tracked: while acquired it blocks
every caller, the holding thread included (recursive deadlock). -/
structure SrwLockMutex where
  locked : Bool
  deriving DecidableEq, Repr

namespace SrwLockMutex

/-- `SrwLockMutex::new()`: `SRWLOCK_INIT`, unlocked (`init()` is empty). -/
def new : SrwLockMutex := ⟨false⟩

/-- Embedding of `SrwLockMutex::lock` (`AcquireSRWLockExclusive`). -/
def lock (m : SrwLockMutex) : Option SrwLockMutex :=
  if m.locked then none else some ⟨true⟩

/-- Embedding of `SrwLockMutex::try_lock`
(`TryAcquireSRWLockExclusive(..) != 0`). -/
def tryLock (m : SrwLockMutex) : Bool × SrwLockMutex :=
  if m.locked then (false, m) else (true, ⟨true⟩)

/-- Embedding of `SrwLockMutex::unlock` (`ReleaseSRWLockExclusive`). -/
def unlock (_ : SrwLockMutex) : SrwLockMutex := ⟨false⟩

end SrwLockMutex

/-- Embedding of `Mutex` (mutex.rs): the `InnerMutex` union is modelled with
one field per variant — each operation consults and updates only the variant
selected by the `MutexKind` it dispatches on, exactly as the union does —
plus the `held` flag used by the recursion-tolerant tiers. -/
structure Mutex where
  srwlock : SrwLockMutex
  critical_section : CriticalSectionMutex
  legacy : LegacyMutex
  held : Bool
  deriving DecidableEq, Repr

/-- Result of an operation that can block forever or panic: `ok` carries the
updated state, `panicked` the panic message together with the state at the
moment of the panic, and `blocked` marks a wait that never returns in the
modelled schedule. -/
inductive LockResult (σ : Type) where
  | ok : σ → LockResult σ
  | panicked : String → σ → LockResult σ
  | blocked : LockResult σ
  deriving DecidableEq, Repr

namespace Mutex

/-- `Mutex::new()` (every variant starts in its freshly initialized state)
with `held` false; covers `new()` followed by `init()`. -/
def new : Mutex := ⟨SrwLockMutex.new, CriticalSectionMutex.new, LegacyMutex.new, false⟩

/-- Embedding of `Mutex::flag_locked`: returns false when `held` is already
set, otherwise sets it and returns true. -/
def flag_locked (m : Mutex) : Bool × Mutex :=
  if m.held then (false, m) else (true, { m with held := true })

/-- Embedding of `Mutex::unlock`, dispatched on `MUTEX_KIND`. -/
def unlock (k : MutexKind) (m : Mutex) : Mutex :=
  match k with
  | .SrwLock => { m with srwlock := m.srwlock.unlock }
  | .CriticalSection =>
      { m with held := false, critical_section := m.critical_section.unlock }
  | .Legacy => { m with held := false, legacy := m.legacy.unlock }

/-- Embedding of `Mutex::lock` for calling thread `t`, dispatched on
`MUTEX_KIND`. On the CriticalSection and Legacy tiers the native acquire is
followed by `flag_locked()`; on failure the code runs `self.unlock()` and
panics with "cannot recursively lock a mutex". -/
def lock (k : MutexKind) (t : Nat) (m : Mutex) : LockResult Mutex :=
  match k with
  | .SrwLock =>
      match m.srwlock.lock with
      | none => .blocked
      | some s => .ok { m with srwlock := s }
  | .CriticalSection =>
      match m.critical_section.lock t with
      | none => .blocked
      | some cs =>
          let m1 := { m with critical_section := cs }
          let fm := m1.flag_locked
          if fm.1 then .ok fm.2
          else .panicked "cannot recursively lock a mutex" (fm.2.unlock k)
  | .Legacy =>
      match m.legacy.lock t with
      | none => .blocked
      | some lg =>
          let m1 := { m with legacy := lg }
          let fm := m1.flag_locked
          if fm.1 then .ok fm.2
          else .panicked "cannot recursively lock a mutex" (fm.2.unlock k)

/-- Embedding of `Mutex::try_lock` for calling thread `t`, dispatched on
`MUTEX_KIND`. On the CriticalSection and Legacy tiers a successful native
try-acquire is followed by `flag_locked()`; when the flag was already set
the code runs `self.unlock()` and returns false. -/
def try_lock (k : MutexKind) (t : Nat) (m : Mutex) : Bool × Mutex :=
  match k with
  | .SrwLock =>
      let rs := m.srwlock.tryLock
      (rs.1, { m with srwlock := rs.2 })
  | .CriticalSection =>
      let rs := m.critical_section.tryLock t
      let m1 := { m with critical_section := rs.2 }
      if !rs.1 then (false, m1)
      else
        let fm := m1.flag_locked
        if fm.1 then (true, fm.2) else (false, fm.2.unlock k)
  | .Legacy =>
      let rs := m.legacy.tryLock t
      let m1 := { m with legacy := rs.2 }
      if !rs.1 then (false, m1)
      else
        let fm := m1.flag_locked
        if fm.1 then (true, fm.2) else (false, fm.2.unlock k)

/-- A mutex in a consistent held state on tier `k`: the native primitive is
acquired, and on the flag-using tiers the `held` flag is set and some thread
owns the native object. -/
def WellHeld (k : MutexKind) (m : Mutex) : Prop :=
  match k with
  | .SrwLock => m.srwlock.locked = true
  | .CriticalSection =>
      m.held = true ∧ 1 ≤ m.critical_section.count ∧
        m.critical_section.owner.isSome = true
  | .Legacy => m.held = true ∧ 1 ≤ m.legacy.count ∧ m.legacy.owner.isSome = true

/-- A mutex in the unheld state on tier `k`: the native primitive is free and
the `held` flag is clear. -/
def Unheld (k : MutexKind) (m : Mutex) : Prop :=
  match k with
  | .SrwLock => m.srwlock.locked = false
  | .CriticalSection => m.held = false ∧ m.critical_section.owner = none
  | .Legacy => m.held = false ∧ m.legacy.owner = none

end Mutex

/-- C3: tier selection follows exactly the ordered rule of `init` in
`mutex/compat.rs`: Modern (`SrwLock`) iff the probe reports
`TryAcquireSRWLockExclusive` present; otherwise Intermediate
(`CriticalSection`) iff the probe reports `TryEnterCriticalSection` present;
otherwise Legacy. -/
theorem init_ordered_tier_rule (c : Capabilities) :
    (init c = .SrwLock ↔ c.tryAcquireSRWLockExclusiveAvailable = true) ∧
    (init c = .CriticalSection ↔
      (c.tryAcquireSRWLockExclusiveAvailable = false ∧
        c.tryEnterCriticalSectionAvailable = true)) ∧
    (init c = .Legacy ↔
      (c.tryAcquireSRWLockExclusiveAvailable = false ∧
        c.tryEnterCriticalSectionAvailable = false)) := by
  rcases c with ⟨a, b⟩
  cases a <;> cases b <;> simp [init]

/-- C1: on the CriticalSection and Legacy tiers, a `lock()` call by the
thread that already holds the mutex — the `held` flag is true when the
native (recursion-tolerant) acquire returns — performs an `unlock()` and
then panics with "cannot recursively lock a mutex"; it never returns `ok`.
The state carried by the panic is exactly the original state with `held`
cleared: the extra native acquisition has been undone by the `unlock()`. -/
theorem lock_recursive_unlocks_then_panics (k : MutexKind) (t : Nat) (m : Mutex)
    (hk : k = .CriticalSection ∨ k = .Legacy)
    (hheld : m.held = true)
    (hcs : k = .CriticalSection →
      m.critical_section.owner = some t ∧ 1 ≤ m.critical_section.count)
    (hleg : k = .Legacy → m.legacy.owner = some t ∧ 1 ≤ m.legacy.count) :
    Mutex.lock k t m =
      .panicked "cannot recursively lock a mutex" { m with held := false } := by
  rcases hk with rfl | rfl
  · obtain ⟨ho, hc⟩ := hcs rfl
    rcases m with ⟨srw, ⟨cso, csc⟩, lg, hd⟩
    simp only at ho hheld hc
    subst ho hheld
    have h2 : ¬ (csc + 1 ≤ 1) := by omega
    simp [Mutex.lock, CriticalSectionMutex.lock, Mutex.flag_locked, Mutex.unlock,
      CriticalSectionMutex.unlock, h2]
  · obtain ⟨ho, hc⟩ := hleg rfl
    rcases m with ⟨srw, cs, ⟨lgo, lgc⟩, hd⟩
    simp only at ho hheld hc
    subst ho hheld
    have h2 : ¬ (lgc + 1 ≤ 1) := by omega
    simp [Mutex.lock, LegacyMutex.lock, Mutex.flag_locked, Mutex.unlock,
      LegacyMutex.unlock, h2]

/-- Witness for C1 at a concrete input: a CriticalSection-tier mutex held
once by thread 0, locked again by thread 0. -/
theorem lock_recursive_unlocks_then_panics_witness :
    Mutex.lock .CriticalSection 0
        { Mutex.new with held := true, critical_section := ⟨some 0, 1⟩ } =
      .panicked "cannot recursively lock a mutex"
        { Mutex.new with held := false, critical_section := ⟨some 0, 1⟩ } :=
  lock_recursive_unlocks_then_panics .CriticalSection 0
    { Mutex.new with held := true, critical_section := ⟨some 0, 1⟩ }
    (Or.inl rfl) rfl (fun _ => ⟨rfl, Nat.le_refl 1⟩) (fun h => nomatch h)

/-- C4: on every tier, `try_lock()` on a mutex in a consistent held state
returns false (`try_lock` is a total function of the state — it never
blocks), and `try_lock()` on an unheld mutex returns true and leaves the
mutex in a consistent held state. -/
theorem try_lock_held_false_unheld_true (k : MutexKind) (t : Nat) (m : Mutex) :
    (Mutex.WellHeld k m → (Mutex.try_lock k t m).1 = false) ∧
    (Mutex.Unheld k m →
      (Mutex.try_lock k t m).1 = true ∧ Mutex.WellHeld k (Mutex.try_lock k t m).2) := by
  cases k
  · rcases m with ⟨⟨srwl⟩, cs, lg, hd⟩
    cases srwl <;>
      simp [Mutex.WellHeld, Mutex.Unheld, Mutex.try_lock, SrwLockMutex.tryLock]
  · rcases m with ⟨srw, ⟨cso, csc⟩, lg, hd⟩
    constructor
    · rintro ⟨h1, _h2, h3⟩
      simp only at h1 h3
      subst h1
      rcases cso with _ | o
      · simp at h3
      · by_cases ht : o = t <;>
          simp [Mutex.try_lock, CriticalSectionMutex.tryLock, Mutex.flag_locked,
            Mutex.unlock, ht]
    · rintro ⟨h1, h2⟩
      simp only at h1 h2
      subst h1 h2
      simp [Mutex.try_lock, CriticalSectionMutex.tryLock, Mutex.flag_locked,
        Mutex.WellHeld]
  · rcases m with ⟨srw, cs, ⟨lgo, lgc⟩, hd⟩
    constructor
    · rintro ⟨h1, _h2, h3⟩
      simp only at h1 h3
      subst h1
      rcases lgo with _ | o
      · simp at h3
      · by_cases ht : o = t <;>
          simp [Mutex.try_lock, LegacyMutex.tryLock, Mutex.flag_locked,
            Mutex.unlock, ht]
    · rintro ⟨h1, h2⟩
      simp only at h1 h2
      subst h1 h2
      simp [Mutex.try_lock, LegacyMutex.tryLock, Mutex.flag_locked,
        Mutex.WellHeld]

/-- Witness for C4 at concrete inputs: on the CriticalSection tier,
`try_lock` by thread 1 on a mutex held by thread 0 returns false, and
`try_lock` by thread 1 on a fresh mutex returns true. -/
theorem try_lock_held_false_unheld_true_witness :
    (Mutex.try_lock .CriticalSection 1
        { Mutex.new with held := true, critical_section := ⟨some 0, 1⟩ }).1 = false ∧
    (Mutex.try_lock .CriticalSection 1 Mutex.new).1 = true :=
  ⟨(try_lock_held_false_unheld_true .CriticalSection 1
      { Mutex.new with held := true, critical_section := ⟨some 0, 1⟩ }).1
      ⟨rfl, Nat.le_refl 1, rfl⟩,
   ((try_lock_held_false_unheld_true .CriticalSection 1 Mutex.new).2
      ⟨rfl, rfl⟩).1⟩

/-- C9: on the CriticalSection and Legacy tiers, `try_lock()` by the thread
that currently holds the mutex returns false, and as a side effect clears
the `held` flag and performs one native unlock (the state returned is the
original state with `held` cleared — the native recursive acquisition has
been undone); an immediately following `lock()` by that same thread then
passes the `held`-flag check and returns `ok` instead of panicking. -/
theorem try_lock_by_holder_false_then_lock_ok (k : MutexKind) (t : Nat) (m : Mutex)
    (hk : k = .CriticalSection ∨ k = .Legacy)
    (hheld : m.held = true)
    (hcs : k = .CriticalSection →
      m.critical_section.owner = some t ∧ 1 ≤ m.critical_section.count)
    (hleg : k = .Legacy → m.legacy.owner = some t ∧ 1 ≤ m.legacy.count) :
    Mutex.try_lock k t m = (false, { m with held := false }) ∧
    ∃ m2, Mutex.lock k t { m with held := false } = .ok m2 ∧ m2.held = true := by
  rcases hk with rfl | rfl
  · obtain ⟨ho, hc⟩ := hcs rfl
    rcases m with ⟨srw, ⟨cso, csc⟩, lg, hd⟩
    simp only at ho hheld hc
    subst ho hheld
    have h2 : ¬ (csc + 1 ≤ 1) := by omega
    constructor
    · simp [Mutex.try_lock, CriticalSectionMutex.tryLock, Mutex.flag_locked,
        Mutex.unlock, CriticalSectionMutex.unlock, h2]
    · refine ⟨Mutex.mk srw ⟨some t, csc + 1⟩ lg true, ?_, rfl⟩
      simp [Mutex.lock, CriticalSectionMutex.lock, Mutex.flag_locked]
  · obtain ⟨ho, hc⟩ := hleg rfl
    rcases m with ⟨srw, cs, ⟨lgo, lgc⟩, hd⟩
    simp only at ho hheld hc
    subst ho hheld
    have h2 : ¬ (lgc + 1 ≤ 1) := by omega
    constructor
    · simp [Mutex.try_lock, LegacyMutex.tryLock, Mutex.flag_locked,
        Mutex.unlock, LegacyMutex.unlock, h2]
    · refine ⟨Mutex.mk srw cs ⟨some t, lgc + 1⟩ true, ?_, rfl⟩
      simp [Mutex.lock, LegacyMutex.lock, Mutex.flag_locked]

/-- Witness for C9 at a concrete input: a Legacy-tier mutex held once by
thread 3, `try_lock`ed again by thread 3. -/
theorem try_lock_by_holder_false_then_lock_ok_witness :
    Mutex.try_lock .Legacy 3
        { Mutex.new with held := true, legacy := ⟨some 3, 1⟩ } =
      (false, { Mutex.new with held := false, legacy := ⟨some 3, 1⟩ }) ∧
    ∃ m2, Mutex.lock .Legacy 3
        { Mutex.new with held := false, legacy := ⟨some 3, 1⟩ } = .ok m2 ∧
      m2.held = true :=
  try_lock_by_holder_false_then_lock_ok .Legacy 3
    { Mutex.new with held := true, legacy := ⟨some 3, 1⟩ }
    (Or.inr rfl) rfl (fun h => nomatch h) (fun _ => ⟨rfl, Nat.le_refl 1⟩)

/-- Number of waiters released and number still waiting when
`WakeConditionVariable` is called with `w` threads blocked on the condition
variable: it wakes a single waiter, if any. -/
def WakeConditionVariable (w : Nat) : Nat × Nat :=
  if w = 0 then (0, 0) else (1, w - 1)

/-- Number of waiters released and number still waiting when
`WakeAllConditionVariable` is called with `w` threads blocked: it wakes
every waiter. -/
def WakeAllConditionVariable (w : Nat) : Nat × Nat := (w, 0)

/-- Number of waiters released and number still waiting when `PulseEvent` is
called on the manual-reset event with `w` threads blocked on it: the pulse
releases every currently waiting thread and the event resets. -/
def PulseEvent (w : Nat) : Nat × Nat := (w, 0)

/-- Outcome the host reports for one bounded wait: a wakeup (`WAIT_OBJECT_0`,
or a nonzero `SleepConditionVariableSRW` return), expiry of the timeout
(`WAIT_TIMEOUT`, or a zero return with last error `ERROR_TIMEOUT`), or any
other host result (any other wait return value, or a zero
`SleepConditionVariableSRW` return with a different last error). -/
inductive WaitOutcome where
  | woken
  | timedOut
  | failed
  deriving DecidableEq, Repr

/-- Outcome of `Condvar::wait_timeout`: a normal return carrying the boolean
result and the mutex state (reacquired), a panic carrying the mutex state at
the moment of the panic, or a wait that never returns. -/
inductive WaitRes where
  | ok : Bool → Mutex → WaitRes
  | panicked : String → Mutex → WaitRes
  | blocked : WaitRes
  deriving DecidableEq, Repr

namespace Condvar

/-- Embedding of `Condvar::notify_one` acting on the count `w` of threads
currently blocked on the condition variable's native object, returning
(waiters released, waiters still blocked): the SrwLock tier dispatches to
`WakeConditionVariable`, the CriticalSection and Legacy tiers dispatch to
`PulseEvent` on the manual-reset event. -/
def notify_one (k : MutexKind) (w : Nat) : Nat × Nat :=
  match k with
  | .SrwLock => WakeConditionVariable w
  | .CriticalSection | .Legacy => PulseEvent w

/-- Embedding of `Condvar::notify_all`: the SrwLock tier dispatches to
`WakeAllConditionVariable`, the CriticalSection and Legacy tiers dispatch to
`PulseEvent`. -/
def notify_all (k : MutexKind) (w : Nat) : Nat × Nat :=
  match k with
  | .SrwLock => WakeAllConditionVariable w
  | .CriticalSection | .Legacy => PulseEvent w

/-- Embedding of `Condvar::wait_timeout` for calling thread `t`, given the
outcome `host` the host reports for the single bounded wait performed.

On the SrwLock tier `SleepConditionVariableSRW` releases and reacquires the
mutex natively, so the mutex state is unchanged at the interface; a zero
return is mapped to false after `debug_assert_eq!(os::errno(), ERROR_TIMEOUT)`,
modelled by the `dbg` flag (true when debug assertions are compiled in): the
assertion panics on a non-timeout failure only when `dbg` is true.

On the CriticalSection and Legacy tiers the mutex is explicitly unlocked,
the event is waited on — `WAIT_OBJECT_0` giving true, `WAIT_TIMEOUT` giving
false, and anything else panicking with "event wait failed" before the
relock — and the mutex is locked again before returning. -/
def wait_timeout (k : MutexKind) (dbg : Bool) (host : WaitOutcome)
    (t : Nat) (m : Mutex) : WaitRes :=
  match k with
  | .SrwLock =>
      match host with
      | .woken => .ok true m
      | .timedOut => .ok false m
      | .failed =>
          if dbg then .panicked "assertion failed: errno equals ERROR_TIMEOUT" m
          else .ok false m
  | .CriticalSection | .Legacy =>
      let m1 := m.unlock k
      match host with
      | .failed => .panicked "event wait failed" m1
      | .woken =>
          match Mutex.lock k t m1 with
          | .ok m2 => .ok true m2
          | .panicked s m2 => .panicked s m2
          | .blocked => .blocked
      | .timedOut =>
          match Mutex.lock k t m1 with
          | .ok m2 => .ok false m2
          | .panicked s m2 => .panicked s m2
          | .blocked => .blocked

end Condvar

/-- C5: `notify_one()` dispatches to `WakeConditionVariable` on the SrwLock
tier, waking exactly one waiter when at least one is blocked, and dispatches
to the broadcast `PulseEvent` on the CriticalSection and Legacy tiers,
waking all current waiters; `notify_all()` wakes all waiters on every
tier. -/
theorem notify_dispatch (w : Nat) :
    (Condvar.notify_one .SrwLock w = WakeConditionVariable w) ∧
    (Condvar.notify_one .CriticalSection w = PulseEvent w) ∧
    (Condvar.notify_one .Legacy w = PulseEvent w) ∧
    (1 ≤ w → Condvar.notify_one .SrwLock w = (1, w - 1)) ∧
    (Condvar.notify_one .CriticalSection w = (w, 0)) ∧
    (Condvar.notify_one .Legacy w = (w, 0)) ∧
    (∀ k, Condvar.notify_all k w = (w, 0)) := by
  refine ⟨rfl, rfl, rfl, ?_, rfl, rfl, ?_⟩
  · intro hw
    have : ¬ (w = 0) := by omega
    simp [Condvar.notify_one, WakeConditionVariable, this]
  · intro k
    cases k <;> rfl

/-- Witness for C5 at a concrete input: three waiters. -/
theorem notify_dispatch_witness :
    Condvar.notify_one .SrwLock 3 = (1, 2) ∧
    Condvar.notify_one .CriticalSection 3 = (3, 0) :=
  ⟨(notify_dispatch 3).2.2.2.1 (by decide), (notify_dispatch 3).2.2.2.2.1⟩

/-- Helper: `Mutex::lock` on the CriticalSection tier returns `ok` whenever
the `held` flag is clear and the native section is unowned or already owned
by the caller. -/
lemma lock_criticalSection_ok (t : Nat) (m : Mutex) (hheld : m.held = false)
    (ho : m.critical_section.owner = none ∨ m.critical_section.owner = some t) :
    ∃ m2, Mutex.lock .CriticalSection t m = .ok m2 := by
  rcases m with ⟨srw, ⟨cso, csc⟩, lg, hd⟩
  simp only at hheld ho
  subst hheld
  rcases ho with rfl | rfl
  · exact ⟨Mutex.mk srw ⟨some t, 1⟩ lg true, rfl⟩
  · refine ⟨Mutex.mk srw ⟨some t, csc + 1⟩ lg true, ?_⟩
    simp [Mutex.lock, CriticalSectionMutex.lock, Mutex.flag_locked]

/-- Helper: `Mutex::lock` on the Legacy tier returns `ok` whenever the
`held` flag is clear and the native mutex is unowned or already owned by the
caller. -/
lemma lock_legacy_ok (t : Nat) (m : Mutex) (hheld : m.held = false)
    (ho : m.legacy.owner = none ∨ m.legacy.owner = some t) :
    ∃ m2, Mutex.lock .Legacy t m = .ok m2 := by
  rcases m with ⟨srw, cs, ⟨lgo, lgc⟩, hd⟩
  simp only at hheld ho
  subst hheld
  rcases ho with rfl | rfl
  · exact ⟨Mutex.mk srw cs ⟨some t, 1⟩ true, rfl⟩
  · refine ⟨Mutex.mk srw cs ⟨some t, lgc + 1⟩ true, ?_⟩
    simp [Mutex.lock, LegacyMutex.lock, Mutex.flag_locked]

/-- Counterexample for C6 as stated: on the SrwLock (Modern) tier with debug
assertions compiled out, a host wait result outside wakeup/timeout (a zero
`SleepConditionVariableSRW` return whose last error is not `ERROR_TIMEOUT`)
does not cause a panic — `wait_timeout` returns the ordinary value false,
exactly as if the wait had timed out. -/
theorem wait_timeout_failed_modern_no_panic :
    Condvar.wait_timeout .SrwLock false .failed 0
        { Mutex.new with srwlock := ⟨true⟩ } =
      .ok false { Mutex.new with srwlock := ⟨true⟩ } := rfl

/-- C6 (amended): `wait_timeout` returns true when the wait ended in a
wakeup and false when it ended in timeout expiry, the timed-out case being
an ordinary false return rather than an error; a host wait result outside
wakeup/timeout causes a fatal panic on the CriticalSection and Legacy tiers
("event wait failed", raised before the relock), while on the SrwLock tier
it is reported as false like a timeout, with only a debug assertion (active
when debug assertions are compiled in) turning it into a panic. -/
theorem wait_timeout_outcomes (k : MutexKind) (dbg : Bool) (t : Nat) (m : Mutex)
    (hcs : k = .CriticalSection → m.critical_section.owner = some t)
    (hleg : k = .Legacy → m.legacy.owner = some t) :
    (∃ m', Condvar.wait_timeout k dbg .woken t m = .ok true m') ∧
    (∃ m', Condvar.wait_timeout k dbg .timedOut t m = .ok false m') ∧
    (k = .SrwLock → dbg = false →
      Condvar.wait_timeout k dbg .failed t m = .ok false m) ∧
    (k = .SrwLock → dbg = true →
      ∃ s m', Condvar.wait_timeout k dbg .failed t m = .panicked s m') ∧
    (k ≠ .SrwLock →
      Condvar.wait_timeout k dbg .failed t m =
        .panicked "event wait failed" (m.unlock k)) := by
  cases k
  · refine ⟨⟨m, rfl⟩, ⟨m, rfl⟩, ?_, ?_, fun h => absurd rfl h⟩
    · rintro - rfl
      rfl
    · rintro - rfl
      exact ⟨_, m, rfl⟩
  · have ho : (m.unlock .CriticalSection).critical_section.owner = none ∨
        (m.unlock .CriticalSection).critical_section.owner = some t := by
      by_cases hcnt : m.critical_section.count ≤ 1
      · left
        simp [Mutex.unlock, CriticalSectionMutex.unlock, hcnt]
      · right
        simp [Mutex.unlock, CriticalSectionMutex.unlock, hcnt, hcs rfl]
    obtain ⟨m2, h2⟩ := lock_criticalSection_ok t (m.unlock .CriticalSection) rfl ho
    refine ⟨⟨m2, ?_⟩, ⟨m2, ?_⟩, ?_, ?_, fun _ => rfl⟩
    · simp [Condvar.wait_timeout, h2]
    · simp [Condvar.wait_timeout, h2]
    · intro h
      exact absurd h (by decide)
    · intro h
      exact absurd h (by decide)
  · have ho : (m.unlock .Legacy).legacy.owner = none ∨
        (m.unlock .Legacy).legacy.owner = some t := by
      by_cases hcnt : m.legacy.count ≤ 1
      · left
        simp [Mutex.unlock, LegacyMutex.unlock, hcnt]
      · right
        simp [Mutex.unlock, LegacyMutex.unlock, hcnt, hleg rfl]
    obtain ⟨m2, h2⟩ := lock_legacy_ok t (m.unlock .Legacy) rfl ho
    refine ⟨⟨m2, ?_⟩, ⟨m2, ?_⟩, ?_, ?_, fun _ => rfl⟩
    · simp [Condvar.wait_timeout, h2]
    · simp [Condvar.wait_timeout, h2]
    · intro h
      exact absurd h (by decide)
    · intro h
      exact absurd h (by decide)

/-- Witness for C6 (amended) at a concrete input: a CriticalSection-tier
mutex held once by thread 0, release build. -/
theorem wait_timeout_outcomes_witness :
    (∃ m', Condvar.wait_timeout .CriticalSection false .woken 0
        { Mutex.new with held := true, critical_section := ⟨some 0, 1⟩ } = .ok true m') ∧
    (∃ m', Condvar.wait_timeout .CriticalSection false .timedOut 0
        { Mutex.new with held := true, critical_section := ⟨some 0, 1⟩ } = .ok false m') ∧
    (MutexKind.CriticalSection = .SrwLock → false = false →
      Condvar.wait_timeout .CriticalSection false .failed 0
          { Mutex.new with held := true, critical_section := ⟨some 0, 1⟩ } =
        .ok false { Mutex.new with held := true, critical_section := ⟨some 0, 1⟩ }) ∧
    (MutexKind.CriticalSection = .SrwLock → false = true →
      ∃ s m', Condvar.wait_timeout .CriticalSection false .failed 0
          { Mutex.new with held := true, critical_section := ⟨some 0, 1⟩ } = .panicked s m') ∧
    (MutexKind.CriticalSection ≠ .SrwLock →
      Condvar.wait_timeout .CriticalSection false .failed 0
          { Mutex.new with held := true, critical_section := ⟨some 0, 1⟩ } =
        .panicked "event wait failed"
          (Mutex.unlock .CriticalSection
            { Mutex.new with held := true, critical_section := ⟨some 0, 1⟩ })) :=
  wait_timeout_outcomes .CriticalSection false 0
    { Mutex.new with held := true, critical_section := ⟨some 0, 1⟩ }
    (fun _ => rfl) (fun h => nomatch h)

/-- State of an `SRWLOCK` word used as a reader-writer lock: free, acquired
exclusively, or acquired shared by `n + 1` readers. -/
inductive SrwRw where
  | free
  | writer
  | readers (n : Nat)
  deriving DecidableEq, Repr

namespace SrwRw

/-- `AcquireSRWLockShared`: blocks while exclusively acquired. -/
def acquireShared : SrwRw → Option SrwRw
  | .free => some (.readers 0)
  | .readers n => some (.readers (n + 1))
  | .writer => none

/-- `TryAcquireSRWLockShared`. -/
def tryAcquireShared : SrwRw → Bool × SrwRw
  | .free => (true, .readers 0)
  | .readers n => (true, .readers (n + 1))
  | .writer => (false, .writer)

/-- `AcquireSRWLockExclusive`: blocks unless free. -/
def acquireExclusive : SrwRw → Option SrwRw
  | .free => some .writer
  | _ => none

/-- `TryAcquireSRWLockExclusive`. -/
def tryAcquireExclusive : SrwRw → Bool × SrwRw
  | .free => (true, .writer)
  | s => (false, s)

/-- `ReleaseSRWLockShared` (releasing a lock not held shared is undefined;
modelled as leaving the state unchanged). -/
def releaseShared : SrwRw → SrwRw
  | .readers 0 => .free
  | .readers (n + 1) => .readers n
  | s => s

/-- `ReleaseSRWLockExclusive` (releasing a lock not held exclusively is
undefined; modelled as leaving the state unchanged). -/
def releaseExclusive : SrwRw → SrwRw
  | .writer => .free
  | s => s

end SrwRw

/-- Embedding of `MovableRWLock` (rwlock.rs): the single `usize` word either
holds the `SRWLOCK` bit pattern (SrwLock tier, the `srw` field) or holds 0 /
a pointer to the lazily boxed fallback `Mutex` (CriticalSection and Legacy
tiers, the `fallback` field, `none` for 0). As with `InnerMutex`, each
operation only consults the interpretation selected by the tier it
dispatches on. -/
structure MovableRWLock where
  srw : SrwRw
  fallback : Option Mutex
  deriving DecidableEq, Repr

namespace MovableRWLock

/-- `MovableRWLock::new()`: the word is 0 (`SRWLOCK_INIT`, and no fallback
mutex installed). -/
def new : MovableRWLock := ⟨.free, none⟩

/-- Embedding of `MovableRWLock::remutex` in the sequential (single-caller)
case: `atomic_boxed_init` on the instance word installs a freshly allocated
and initialized fallback `Mutex` when the word is 0 (the compare-exchange
from 0 succeeds unopposed) and otherwise returns the installed one. The
racing case is modelled separately by the `Compat` interleaving machine. -/
def remutex (l : MovableRWLock) : Mutex × MovableRWLock :=
  match l.fallback with
  | some mu => (mu, l)
  | none => (Mutex.new, { l with fallback := some Mutex.new })

/-- Embedding of `MovableRWLock::read` for calling thread `t`. -/
def read (k : MutexKind) (t : Nat) (l : MovableRWLock) : LockResult MovableRWLock :=
  match k with
  | .SrwLock =>
      match l.srw.acquireShared with
      | none => .blocked
      | some s => .ok { l with srw := s }
  | .CriticalSection | .Legacy =>
      let ml := l.remutex
      match Mutex.lock k t ml.1 with
      | .ok mu2 => .ok { ml.2 with fallback := some mu2 }
      | .panicked s mu2 => .panicked s { ml.2 with fallback := some mu2 }
      | .blocked => .blocked

/-- Embedding of `MovableRWLock::try_read` for calling thread `t`. -/
def try_read (k : MutexKind) (t : Nat) (l : MovableRWLock) : Bool × MovableRWLock :=
  match k with
  | .SrwLock =>
      let rs := l.srw.tryAcquireShared
      (rs.1, { l with srw := rs.2 })
  | .CriticalSection | .Legacy =>
      let ml := l.remutex
      let rs := Mutex.try_lock k t ml.1
      (rs.1, { ml.2 with fallback := some rs.2 })

/-- Embedding of `MovableRWLock::write` for calling thread `t`. -/
def write (k : MutexKind) (t : Nat) (l : MovableRWLock) : LockResult MovableRWLock :=
  match k with
  | .SrwLock =>
      match l.srw.acquireExclusive with
      | none => .blocked
      | some s => .ok { l with srw := s }
  | .CriticalSection | .Legacy =>
      let ml := l.remutex
      match Mutex.lock k t ml.1 with
      | .ok mu2 => .ok { ml.2 with fallback := some mu2 }
      | .panicked s mu2 => .panicked s { ml.2 with fallback := some mu2 }
      | .blocked => .blocked

/-- Embedding of `MovableRWLock::try_write` for calling thread `t`. -/
def try_write (k : MutexKind) (t : Nat) (l : MovableRWLock) : Bool × MovableRWLock :=
  match k with
  | .SrwLock =>
      let rs := l.srw.tryAcquireExclusive
      (rs.1, { l with srw := rs.2 })
  | .CriticalSection | .Legacy =>
      let ml := l.remutex
      let rs := Mutex.try_lock k t ml.1
      (rs.1, { ml.2 with fallback := some rs.2 })

/-- Embedding of `MovableRWLock::read_unlock`. -/
def read_unlock (k : MutexKind) (l : MovableRWLock) : MovableRWLock :=
  match k with
  | .SrwLock => { l with srw := l.srw.releaseShared }
  | .CriticalSection | .Legacy =>
      let ml := l.remutex
      { ml.2 with fallback := some (ml.1.unlock k) }

/-- Embedding of `MovableRWLock::write_unlock`. -/
def write_unlock (k : MutexKind) (l : MovableRWLock) : MovableRWLock :=
  match k with
  | .SrwLock => { l with srw := l.srw.releaseExclusive }
  | .CriticalSection | .Legacy =>
      let ml := l.remutex
      { ml.2 with fallback := some (ml.1.unlock k) }

/-- Embedding of `MovableRWLock::destroy`: the returned flag records whether
an installed fallback mutex was destroyed and its box freed
(`Box::from_raw(n as *mut Mutex).destroy()`). -/
def destroy (k : MutexKind) (l : MovableRWLock) : MovableRWLock × Bool :=
  match k with
  | .SrwLock => (l, false)
  | .CriticalSection | .Legacy =>
      match l.fallback with
      | none => (l, false)
      | some _ => ({ l with fallback := none }, true)

end MovableRWLock

/-- C7: `destroy()` on a movable RWLock is a no-op on the SrwLock tier; on
the CriticalSection and Legacy tiers it destroys and frees the installed
fallback mutex when the storage word is non-zero, and is a safe no-op when
the word is still 0 (no fallback mutex was ever installed). -/
theorem destroy_movable_rwlock (k : MutexKind) (l : MovableRWLock) :
    (MovableRWLock.destroy .SrwLock l = (l, false)) ∧
    (k ≠ .SrwLock → l.fallback = none → MovableRWLock.destroy k l = (l, false)) ∧
    (k ≠ .SrwLock → ∀ mu, l.fallback = some mu →
      MovableRWLock.destroy k l = ({ l with fallback := none }, true)) := by
  refine ⟨rfl, ?_, ?_⟩
  · intro hk hf
    cases k
    · exact absurd rfl hk
    · simp [MovableRWLock.destroy, hf]
    · simp [MovableRWLock.destroy, hf]
  · intro hk mu hf
    cases k
    · exact absurd rfl hk
    · simp [MovableRWLock.destroy, hf]
    · simp [MovableRWLock.destroy, hf]

/-- Witness for C7 at concrete inputs: a never-used movable RWLock and one
with an installed fallback mutex, on the Legacy tier. -/
theorem destroy_movable_rwlock_witness :
    (MovableRWLock.destroy .SrwLock ⟨.free, some Mutex.new⟩ =
      (⟨.free, some Mutex.new⟩, false)) ∧
    (MovableRWLock.destroy .Legacy MovableRWLock.new = (MovableRWLock.new, false)) ∧
    (MovableRWLock.destroy .Legacy ⟨.free, some Mutex.new⟩ = (⟨.free, none⟩, true)) :=
  ⟨(destroy_movable_rwlock .Legacy ⟨.free, some Mutex.new⟩).1,
   (destroy_movable_rwlock .Legacy MovableRWLock.new).2.1 (by decide) rfl,
   (destroy_movable_rwlock .Legacy ⟨.free, some Mutex.new⟩).2.2 (by decide)
     Mutex.new rfl⟩

/-- C8: on every tier, the single-threaded sequence `write()`,
`write_unlock()`, `read()`, `read_unlock()` on a fresh movable RWLock
acquires without blocking or panicking at each step and leaves the lock
immediately available: an immediately following `try_write()` returns
true. -/
theorem write_read_cycle_then_try_write (k : MutexKind) (t : Nat) :
    ∃ l1 l2, MovableRWLock.write k t MovableRWLock.new = .ok l1 ∧
      MovableRWLock.read k t (MovableRWLock.write_unlock k l1) = .ok l2 ∧
      (MovableRWLock.try_write k t (MovableRWLock.read_unlock k l2)).1 = true := by
  cases k
  · exact ⟨_, _, rfl, rfl, rfl⟩
  · exact ⟨_, _, rfl, rfl, rfl⟩
  · exact ⟨_, _, rfl, rfl, rfl⟩

/-- Embedding of the static `RWLock` (rwlock.rs): the word holds the
`SRWLOCK` bit pattern on the SrwLock tier or 0 / a pointer to a lazily
boxed `CriticalSectionMutex` on the other tiers (the static remutex boxes a
bare critical section, not a `Mutex`), plus a `held` flag with the same
purpose as `Mutex`'s. -/
structure RWLock where
  srw : SrwRw
  fallback : Option CriticalSectionMutex
  held : Bool
  deriving DecidableEq, Repr

namespace RWLock

/-- `RWLock::new()`: word 0, `held` false. -/
def new : RWLock := ⟨.free, none, false⟩

/-- Embedding of the static `RWLock::remutex` in the sequential case:
`atomic_boxed_init` installing a freshly initialized boxed
`CriticalSectionMutex` when the word is 0. -/
def remutex (l : RWLock) : CriticalSectionMutex × RWLock :=
  match l.fallback with
  | some cs => (cs, l)
  | none => (CriticalSectionMutex.new, { l with fallback := some CriticalSectionMutex.new })

/-- Embedding of the static `RWLock::flag_locked`. -/
def flag_locked (l : RWLock) : Bool × RWLock :=
  if l.held then (false, l) else (true, { l with held := true })

/-- Embedding of the static `RWLock::lock` for calling thread `t`: on the
SrwLock tier an exclusive (`AcquireSRWLockExclusive`) acquisition of the
word; on the other tiers the fallback critical section is entered, then
`flag_locked()` — on failure the critical section alone is released (`held`
is not touched) and the code panics. -/
def lock (k : MutexKind) (t : Nat) (l : RWLock) : LockResult RWLock :=
  match k with
  | .SrwLock =>
      match l.srw.acquireExclusive with
      | none => .blocked
      | some s => .ok { l with srw := s }
  | .CriticalSection | .Legacy =>
      let cl := l.remutex
      match cl.1.lock t with
      | none => .blocked
      | some cs2 =>
          let l2 := { cl.2 with fallback := some cs2 }
          let fl := l2.flag_locked
          if fl.1 then .ok fl.2
          else .panicked "cannot recursively lock a mutex"
            { fl.2 with fallback := some cs2.unlock }

/-- Embedding of the static `RWLock::unlock`: on the SrwLock tier
`ReleaseSRWLockExclusive`; on the other tiers `held` is cleared and the
fallback critical section is left. -/
def unlock (k : MutexKind) (l : RWLock) : RWLock :=
  match k with
  | .SrwLock => { l with srw := l.srw.releaseExclusive }
  | .CriticalSection | .Legacy =>
      let l1 := { l with held := false }
      let cl := l1.remutex
      { cl.2 with fallback := some cl.1.unlock }

/-- Embedding of the static `RWLock::read`: it delegates to `lock`. -/
def read (k : MutexKind) (t : Nat) (l : RWLock) : LockResult RWLock :=
  RWLock.lock k t l

/-- Embedding of the static `RWLock::write`: it delegates to `lock`. -/
def write (k : MutexKind) (t : Nat) (l : RWLock) : LockResult RWLock :=
  RWLock.lock k t l

/-- Embedding of the static `RWLock::read_unlock`: it delegates to
`unlock`. -/
def read_unlock (k : MutexKind) (l : RWLock) : RWLock :=
  RWLock.unlock k l

/-- Embedding of the static `RWLock::write_unlock`: it delegates to
`unlock`. -/
def write_unlock (k : MutexKind) (l : RWLock) : RWLock :=
  RWLock.unlock k l

end RWLock

/-- C10: for the static RWLock, `read()` and `write()` are the identical
operation on every tier — both are the same exclusive `lock()`, and on the
SrwLock tier `read()` on a fresh lock performs a native exclusive (writer),
not shared, SRW acquisition — and `read_unlock()` and `write_unlock()` are
both the same exclusive `unlock()`; consequently a second reader blocks
behind the first even on the SrwLock tier: the static variant never
provides reader-reader concurrency. -/
theorem static_rwlock_read_write_identical :
    (RWLock.read = RWLock.lock) ∧ (RWLock.write = RWLock.lock) ∧
    (RWLock.read_unlock = RWLock.unlock) ∧
    (RWLock.write_unlock = RWLock.unlock) ∧
    (∀ t, RWLock.read .SrwLock t RWLock.new =
      .ok { RWLock.new with srw := .writer }) ∧
    (∀ t1 t2 l1, RWLock.read .SrwLock t1 RWLock.new = .ok l1 →
      RWLock.read .SrwLock t2 l1 = .blocked) := by
  refine ⟨rfl, rfl, rfl, rfl, fun t => rfl, ?_⟩
  intro t1 t2 l1 h1
  have : l1 = { RWLock.new with srw := .writer } := by
    have h2 : RWLock.read .SrwLock t1 RWLock.new =
        .ok { RWLock.new with srw := .writer } := rfl
    rw [h1] at h2
    injection h2 with h3
  subst this
  rfl

/-- Witness for C10 at a concrete input: thread 0 read-acquires the fresh
static lock on the SrwLock tier, then thread 1's `read()` blocks. -/
theorem static_rwlock_read_write_identical_witness :
    RWLock.read .SrwLock 1 { RWLock.new with srw := .writer } = .blocked :=
  static_rwlock_read_write_identical.2.2.2.2.2 0 1
    { RWLock.new with srw := .writer } rfl

namespace Compat

/-- Shared state during the lazy fallback-lock installation protocol
(`atomic_boxed_init` in mutex/compat.rs) for one lock instance: the
instance's atomic storage word (0 while no fallback lock is installed,
otherwise the installed pointer), the next heap address the allocator will
hand out (addresses are nonzero and, within one run of the protocol, never
reused), and the list of currently live — allocated and not yet freed —
fallback-lock boxes. -/
structure HeapState where
  storage : Nat
  nextPtr : Nat
  live : List Nat
  deriving DecidableEq, Repr

/-- Control state of one thread running `atomic_boxed_init`: before the
initial load of the storage word; holding its own speculative, initialized
box at address `p`, about to compare-exchange; or returned with pointer
`ret`. -/
inductive ThreadState where
  | start
  | allocated (p : Nat)
  | finished (ret : Nat)
  deriving DecidableEq, Repr

/-- The speculative allocation a thread currently owns, if any. -/
def ptrOf : ThreadState → Option Nat
  | .allocated p => some p
  | _ => none

/-- Whether a thread has returned from `atomic_boxed_init`. -/
def isFinished : ThreadState → Bool
  | .finished _ => true
  | _ => false

/-- One atomic step of `atomic_boxed_init` by one thread. From `start` the
thread performs the initial `load`: if the word is nonzero it returns the
loaded pointer, otherwise it allocates and initializes its speculative box
(`init()` and `Box::into_raw`; bundled into this step because the
allocation touches no shared word — only the load is an access to the
instance's storage). From `allocated p` it performs the single
`compare_exchange(0, p)`: on success `p` is installed and returned; on
failure the speculative box is destroyed and freed and the observed winner
pointer is returned. A finished thread takes no further steps. -/
def stepThread (h : HeapState) : ThreadState → HeapState × ThreadState
  | .start =>
      if h.storage ≠ 0 then (h, .finished h.storage)
      else ({ h with nextPtr := h.nextPtr + 1, live := h.nextPtr :: h.live },
        .allocated h.nextPtr)
  | .allocated p =>
      if h.storage = 0 then ({ h with storage := p }, .finished p)
      else ({ h with live := h.live.erase p }, .finished h.storage)
  | .finished r => (h, .finished r)

/-- A configuration: the shared state plus the control state of every
thread concurrently calling `atomic_boxed_init` on the same instance. -/
structure Config where
  heap : HeapState
  threads : List ThreadState
  deriving DecidableEq, Repr

/-- Let thread `i` take one atomic step (no-op for an out-of-range index). -/
def stepAt (c : Config) (i : Nat) : Config :=
  match c.threads[i]? with
  | none => c
  | some ts =>
      let ht := stepThread c.heap ts
      ⟨ht.1, c.threads.set i ht.2⟩

/-- Run an arbitrary interleaving: the schedule lists, in order, which
thread takes the next atomic step. -/
def run (c : Config) : List Nat → Config
  | [] => c
  | i :: sched => run (stepAt c i) sched

/-- Initial configuration: storage word 0, no live allocation, `n` threads
about to call `atomic_boxed_init`. -/
def Config.initial (n : Nat) : Config :=
  ⟨⟨0, 1, []⟩, List.replicate n .start⟩

/-- The installed fallback lock, as a list: empty while the storage word is
0, otherwise the single installed pointer. -/
def installedList (h : HeapState) : List Nat :=
  if h.storage = 0 then [] else [h.storage]

/-- The speculative allocations currently owned by in-flight threads. -/
def specPtrs (ts : List ThreadState) : List Nat := ts.filterMap ptrOf

/-- Every allocated-and-not-freed box, shared and speculative. -/
def owned (c : Config) : List Nat := installedList c.heap ++ specPtrs c.threads

/-- Invariant of the installation protocol: the live allocations are
exactly the installed box (0 or 1 of them) plus the in-flight speculative
boxes, all distinct, nonzero and below the allocation bound; every finished
thread has returned the currently installed (nonzero) pointer; and the
allocator bound is positive. -/
structure Inv (c : Config) : Prop where
  live_perm : c.heap.live.Perm (owned c)
  nodup : (owned c).Nodup
  bound : ∀ p ∈ owned c, 0 < p ∧ p < c.heap.nextPtr
  fin : ∀ r, ThreadState.finished r ∈ c.threads → r = c.heap.storage ∧ r ≠ 0
  next_pos : 1 ≤ c.heap.nextPtr

/-- Helper: no thread holds a speculative allocation before its first
step. -/
lemma specPtrs_replicate_start (n : Nat) :
    specPtrs (List.replicate n .start) = [] := by
  induction n with
  | zero => rfl
  | succ n ih => simp [specPtrs, List.replicate_succ, List.filterMap_cons, ptrOf, ih]

/-- The invariant holds initially. -/
lemma inv_initial (n : Nat) : Inv (Config.initial n) := by
  refine ⟨?_, ?_, ?_, ?_, le_refl 1⟩
  · simp [Config.initial, owned, installedList, specPtrs_replicate_start]
  · simp [Config.initial, owned, installedList, specPtrs_replicate_start]
  · intro p hp
    simp [Config.initial, owned, installedList, specPtrs_replicate_start] at hp
  · intro r hr
    have := List.eq_of_mem_replicate hr
    exact absurd this (by simp)

/-- Helper: a successful index lookup splits the list, and `set` at that
index replaces exactly the split element. -/
lemma set_decomp {α : Type} (b : α) :
    ∀ (l : List α) (i : Nat) (a : α), l[i]? = some a →
      ∃ l₁ l₂, l = l₁ ++ a :: l₂ ∧ l.set i b = l₁ ++ b :: l₂
  | [], i, a, h => by simp at h
  | x :: l, 0, a, h => by
      simp at h
      subst h
      exact ⟨[], l, rfl, rfl⟩
  | x :: l, i + 1, a, h => by
      simp at h
      obtain ⟨l₁, l₂, h1, h2⟩ := set_decomp b l i a h
      refine ⟨x :: l₁, l₂, ?_, ?_⟩
      · rw [List.cons_append, ← h1]
      · exact congrArg (List.cons x) h2

/-- Helper: `specPtrs` ignores a split element holding no allocation. -/
lemma specPtrs_none (l₁ l₂ : List ThreadState) (ts : ThreadState)
    (h : ptrOf ts = none) :
    specPtrs (l₁ ++ ts :: l₂) = specPtrs l₁ ++ specPtrs l₂ := by
  simp [specPtrs, List.filterMap_append, List.filterMap_cons, h]

/-- Helper: `specPtrs` keeps a split element holding an allocation. -/
lemma specPtrs_some (l₁ l₂ : List ThreadState) (ts : ThreadState) (p : Nat)
    (h : ptrOf ts = some p) :
    specPtrs (l₁ ++ ts :: l₂) = specPtrs l₁ ++ p :: specPtrs l₂ := by
  simp [specPtrs, List.filterMap_append, List.filterMap_cons, h]

/-- Invariant preservation: initial load observing an already-installed
pointer. -/
lemma inv_step_start_seen {h : HeapState} {l₁ l₂ : List ThreadState}
    (hs : ¬ h.storage = 0) (hc : Inv ⟨h, l₁ ++ .start :: l₂⟩) :
    Inv ⟨h, l₁ ++ .finished h.storage :: l₂⟩ := by
  obtain ⟨h1, h2, h3, h4, h5⟩ := hc
  have e1 : specPtrs (l₁ ++ ThreadState.start :: l₂) = specPtrs l₁ ++ specPtrs l₂ :=
    specPtrs_none l₁ l₂ _ rfl
  have e2 : specPtrs (l₁ ++ ThreadState.finished h.storage :: l₂) =
      specPtrs l₁ ++ specPtrs l₂ := specPtrs_none l₁ l₂ _ rfl
  have eo : owned ⟨h, l₁ ++ ThreadState.finished h.storage :: l₂⟩ =
      owned ⟨h, l₁ ++ ThreadState.start :: l₂⟩ := by
    simp [owned, e1, e2]
  refine ⟨?_, ?_, ?_, ?_, h5⟩
  · rw [eo]
    exact h1
  · rw [eo]
    exact h2
  · rw [eo]
    exact h3
  · intro r hr
    rw [List.mem_append, List.mem_cons] at hr
    rcases hr with hr | hr | hr
    · exact h4 r (List.mem_append_left _ hr)
    · injection hr with hr'
      exact ⟨hr', by rw [hr']; exact hs⟩
    · exact h4 r (List.mem_append_right _ (List.mem_cons_of_mem _ hr))

/-- Invariant preservation: initial load observing 0, followed by the
speculative allocation. -/
lemma inv_step_start_alloc {h : HeapState} {l₁ l₂ : List ThreadState}
    (hs : h.storage = 0) (hc : Inv ⟨h, l₁ ++ .start :: l₂⟩) :
    Inv ⟨{ h with nextPtr := h.nextPtr + 1, live := h.nextPtr :: h.live },
      l₁ ++ .allocated h.nextPtr :: l₂⟩ := by
  obtain ⟨h1, h2, h3, h4, h5⟩ := hc
  have e1 : specPtrs (l₁ ++ ThreadState.start :: l₂) = specPtrs l₁ ++ specPtrs l₂ :=
    specPtrs_none l₁ l₂ _ rfl
  have e2 : specPtrs (l₁ ++ ThreadState.allocated h.nextPtr :: l₂) =
      specPtrs l₁ ++ h.nextPtr :: specPtrs l₂ := specPtrs_some l₁ l₂ _ _ rfl
  simp only [owned, installedList, hs, if_pos, e1, List.nil_append] at h1 h2 h3
  have hnotmem : h.nextPtr ∉ specPtrs l₁ ++ specPtrs l₂ := by
    intro hmem
    exact absurd (h3 _ hmem).2 (lt_irrefl _)
  refine ⟨?_, ?_, ?_, ?_, ?_⟩
  · simp only [owned, installedList, hs, if_pos, e2, List.nil_append]
    exact (h1.cons h.nextPtr).trans List.perm_middle.symm
  · simp only [owned, installedList, hs, if_pos, e2, List.nil_append]
    exact List.perm_middle.symm.nodup (List.nodup_cons.mpr ⟨hnotmem, h2⟩)
  · intro q hq
    simp only [owned, installedList, hs, if_pos, e2, List.nil_append] at hq
    rw [List.mem_append, List.mem_cons] at hq
    rcases hq with hq | hq | hq
    · obtain ⟨hq1, hq2⟩ := h3 q (List.mem_append_left _ hq)
      exact ⟨hq1, Nat.lt_succ_of_lt hq2⟩
    · subst hq
      exact ⟨h5, Nat.lt_succ_self _⟩
    · obtain ⟨hq1, hq2⟩ := h3 q (List.mem_append_right _ hq)
      exact ⟨hq1, Nat.lt_succ_of_lt hq2⟩
  · intro r hr
    rw [List.mem_append, List.mem_cons] at hr
    rcases hr with hr | hr | hr
    · exact h4 r (List.mem_append_left _ hr)
    · exact absurd hr (by simp)
    · exact h4 r (List.mem_append_right _ (List.mem_cons_of_mem _ hr))
  · exact Nat.le_succ_of_le h5

/-- Invariant preservation: winning compare-exchange — the speculative box
becomes the installed one. -/
lemma inv_step_cas_win {h : HeapState} {l₁ l₂ : List ThreadState} {p : Nat}
    (hs : h.storage = 0) (hc : Inv ⟨h, l₁ ++ .allocated p :: l₂⟩) :
    Inv ⟨{ h with storage := p }, l₁ ++ .finished p :: l₂⟩ := by
  obtain ⟨h1, h2, h3, h4, h5⟩ := hc
  have e1 : specPtrs (l₁ ++ ThreadState.allocated p :: l₂) =
      specPtrs l₁ ++ p :: specPtrs l₂ := specPtrs_some l₁ l₂ _ _ rfl
  have e2 : specPtrs (l₁ ++ ThreadState.finished p :: l₂) =
      specPtrs l₁ ++ specPtrs l₂ := specPtrs_none l₁ l₂ _ rfl
  simp only [owned, installedList, hs, if_pos, e1, List.nil_append] at h1 h2 h3
  have hp_pos : 0 < p := (h3 p (List.mem_append_right _ (List.mem_cons_self _ _))).1
  have hp_ne : ¬ (p = 0) := by omega
  have eo : owned ⟨{ h with storage := p }, l₁ ++ ThreadState.finished p :: l₂⟩ =
      p :: (specPtrs l₁ ++ specPtrs l₂) := by
    simp [owned, installedList, hp_ne, e2]
  refine ⟨?_, ?_, ?_, ?_, h5⟩
  · rw [eo]
    exact h1.trans List.perm_middle
  · rw [eo]
    exact List.perm_middle.nodup h2
  · intro q hq
    rw [eo] at hq
    rw [List.mem_cons, List.mem_append] at hq
    rcases hq with hq | hq | hq
    · subst hq
      exact h3 q (List.mem_append_right _ (List.mem_cons_self _ _))
    · exact h3 q (List.mem_append_left _ hq)
    · exact h3 q (List.mem_append_right _ (List.mem_cons_of_mem _ hq))
  · intro r hr
    rw [List.mem_append, List.mem_cons] at hr
    rcases hr with hr | hr | hr
    · have := h4 r (List.mem_append_left _ hr)
      rw [hs] at this
      exact absurd this.1 this.2
    · injection hr with hr'
      exact ⟨hr', by rw [hr']; exact hp_ne⟩
    · have := h4 r (List.mem_append_right _ (List.mem_cons_of_mem _ hr))
      rw [hs] at this
      exact absurd this.1 this.2

/-- Invariant preservation: losing compare-exchange — the speculative box
is destroyed and freed, the loser returns the installed pointer. -/
lemma inv_step_cas_lose {h : HeapState} {l₁ l₂ : List ThreadState} {p : Nat}
    (hs : ¬ h.storage = 0) (hc : Inv ⟨h, l₁ ++ .allocated p :: l₂⟩) :
    Inv ⟨{ h with live := h.live.erase p },
      l₁ ++ .finished h.storage :: l₂⟩ := by
  obtain ⟨h1, h2, h3, h4, h5⟩ := hc
  have e1 : specPtrs (l₁ ++ ThreadState.allocated p :: l₂) =
      specPtrs l₁ ++ p :: specPtrs l₂ := specPtrs_some l₁ l₂ _ _ rfl
  have e2 : specPtrs (l₁ ++ ThreadState.finished h.storage :: l₂) =
      specPtrs l₁ ++ specPtrs l₂ := specPtrs_none l₁ l₂ _ rfl
  have eold : owned ⟨h, l₁ ++ ThreadState.allocated p :: l₂⟩ =
      h.storage :: (specPtrs l₁ ++ p :: specPtrs l₂) := by
    simp [owned, installedList, hs, e1]
  have eo : owned ⟨{ h with live := h.live.erase p },
      l₁ ++ ThreadState.finished h.storage :: l₂⟩ =
      h.storage :: (specPtrs l₁ ++ specPtrs l₂) := by
    simp [owned, installedList, hs, e2]
  rw [eold] at h1 h2 h3
  obtain ⟨hns, h2'⟩ := List.nodup_cons.mp h2
  have hsp : h.storage ≠ p := by
    intro e
    exact hns (e ▸ List.mem_append_right _ (List.mem_cons_self _ _))
  have hp_notin : p ∉ specPtrs l₁ := by
    intro hmem
    obtain ⟨-, -, disj⟩ := List.nodup_append.mp h2'
    exact disj hmem (List.mem_cons_self _ _)
  have herase : (h.storage :: (specPtrs l₁ ++ p :: specPtrs l₂)).erase p =
      h.storage :: (specPtrs l₁ ++ specPtrs l₂) := by
    rw [List.erase_cons_tail (by simpa using hsp),
      List.erase_append_right _ hp_notin, List.erase_cons_head]
  have hsub : List.Sublist (specPtrs l₁ ++ specPtrs l₂)
      (specPtrs l₁ ++ p :: specPtrs l₂) :=
    (List.sublist_cons_self p (specPtrs l₂)).append_left (specPtrs l₁)
  refine ⟨?_, ?_, ?_, ?_, h5⟩
  · rw [eo]
    have := h1.erase p
    rw [herase] at this
    exact this
  · rw [eo]
    refine List.nodup_cons.mpr ⟨fun hm => hns (hsub.subset hm), ?_⟩
    exact List.Nodup.sublist hsub h2'
  · intro q hq
    rw [eo] at hq
    rw [List.mem_cons, List.mem_append] at hq
    rcases hq with hq | hq | hq
    · rw [hq]
      exact h3 h.storage (List.mem_cons_self _ _)
    · exact h3 q (List.mem_cons_of_mem _ (List.mem_append_left _ hq))
    · exact h3 q
        (List.mem_cons_of_mem _ (List.mem_append_right _ (List.mem_cons_of_mem _ hq)))
  · intro r hr
    rw [List.mem_append, List.mem_cons] at hr
    rcases hr with hr | hr | hr
    · exact h4 r (List.mem_append_left _ hr)
    · injection hr with hr'
      exact ⟨hr', by rw [hr']; exact hs⟩
    · exact h4 r (List.mem_append_right _ (List.mem_cons_of_mem _ hr))

/-- The invariant is preserved by any single thread step. -/
lemma inv_stepAt {c : Config} (hc : Inv c) (i : Nat) : Inv (stepAt c i) := by
  rcases c with ⟨h, threads⟩
  cases hts : threads[i]? with
  | none => simpa [stepAt, hts] using hc
  | some ts =>
    cases ts with
    | finished r =>
        obtain ⟨l₁, l₂, hdec, hset⟩ := set_decomp (ThreadState.finished r) threads i _ hts
        have hgoal : stepAt ⟨h, threads⟩ i = ⟨h, threads⟩ := by
          simp [stepAt, hts, stepThread, hset, ← hdec]
        rw [hgoal]
        exact hc
    | start =>
        by_cases hs : h.storage = 0
        · obtain ⟨l₁, l₂, hdec, hset⟩ :=
            set_decomp (ThreadState.allocated h.nextPtr) threads i _ hts
          have hgoal : stepAt ⟨h, threads⟩ i =
              ⟨{ h with nextPtr := h.nextPtr + 1, live := h.nextPtr :: h.live },
                l₁ ++ ThreadState.allocated h.nextPtr :: l₂⟩ := by
            simp [stepAt, hts, stepThread, hs, hset]
          rw [hgoal]
          exact inv_step_start_alloc hs (hdec ▸ hc)
        · obtain ⟨l₁, l₂, hdec, hset⟩ :=
            set_decomp (ThreadState.finished h.storage) threads i _ hts
          have hgoal : stepAt ⟨h, threads⟩ i =
              ⟨h, l₁ ++ ThreadState.finished h.storage :: l₂⟩ := by
            simp [stepAt, hts, stepThread, hs, hset]
          rw [hgoal]
          exact inv_step_start_seen hs (hdec ▸ hc)
    | allocated p =>
        by_cases hs : h.storage = 0
        · obtain ⟨l₁, l₂, hdec, hset⟩ := set_decomp (ThreadState.finished p) threads i _ hts
          have hgoal : stepAt ⟨h, threads⟩ i =
              ⟨{ h with storage := p }, l₁ ++ ThreadState.finished p :: l₂⟩ := by
            simp [stepAt, hts, stepThread, hs, hset]
          rw [hgoal]
          exact inv_step_cas_win hs (hdec ▸ hc)
        · obtain ⟨l₁, l₂, hdec, hset⟩ :=
            set_decomp (ThreadState.finished h.storage) threads i _ hts
          have hgoal : stepAt ⟨h, threads⟩ i =
              ⟨{ h with live := h.live.erase p },
                l₁ ++ ThreadState.finished h.storage :: l₂⟩ := by
            simp [stepAt, hts, stepThread, hs, hset]
          rw [hgoal]
          exact inv_step_cas_lose hs (hdec ▸ hc)

/-- The invariant is preserved by any interleaving. -/
lemma inv_run : ∀ (sched : List Nat) (c : Config), Inv c → Inv (run c sched)
  | [], _, hc => hc
  | i :: sched, c, hc => inv_run sched (stepAt c i) (inv_stepAt hc i)

/-- A step does not change the number of threads. -/
lemma length_stepAt (c : Config) (i : Nat) :
    (stepAt c i).threads.length = c.threads.length := by
  cases hts : c.threads[i]? with
  | none => simp [stepAt, hts]
  | some ts => simp [stepAt, hts]

/-- A run does not change the number of threads. -/
lemma length_run : ∀ (sched : List Nat) (c : Config),
    (run c sched).threads.length = c.threads.length
  | [], _ => rfl
  | i :: sched, c => (length_run sched (stepAt c i)).trans (length_stepAt c i)

/-- C2: under any interleaving of any number of threads racing through
`atomic_boxed_init` on one movable RWLock instance, once every thread has
returned: every thread returned the pointer held in the instance's storage
word — so all callers returned the same retained pointer — that pointer is
nonzero (an installation happened), and the live allocations are exactly
that single retained fallback lock: every losing thread's speculative
allocation has been destroyed and freed. -/
theorem atomic_boxed_init_one_retained (n : Nat) (sched : List Nat)
    (hn : 0 < n)
    (hall : ((run (Config.initial n) sched).threads.all isFinished) = true) :
    (∀ r, ThreadState.finished r ∈ (run (Config.initial n) sched).threads →
      r = (run (Config.initial n) sched).heap.storage) ∧
    (run (Config.initial n) sched).heap.storage ≠ 0 ∧
    (run (Config.initial n) sched).heap.live =
      [(run (Config.initial n) sched).heap.storage] := by
  have hinv := inv_run sched (Config.initial n) (inv_initial n)
  set c := run (Config.initial n) sched with hc
  obtain ⟨h1, h2, h3, h4, h5⟩ := hinv
  have hlen : c.threads.length = n := by
    rw [hc, length_run]
    simp [Config.initial]
  obtain ⟨ts, hts⟩ : ∃ ts, ts ∈ c.threads :=
    List.exists_mem_of_length_pos (by omega)
  have hfin := List.all_eq_true.mp hall ts hts
  obtain ⟨r0, rfl⟩ : ∃ r, ts = ThreadState.finished r := by
    cases ts with
    | finished r => exact ⟨r, rfl⟩
    | start => exact absurd hfin (by simp [isFinished])
    | allocated p => exact absurd hfin (by simp [isFinished])
  have hr0 := h4 r0 hts
  have hsne : c.heap.storage ≠ 0 := by
    rw [← hr0.1]
    exact hr0.2
  refine ⟨fun r hr => (h4 r hr).1, hsne, ?_⟩
  have hspec : specPtrs c.threads = [] := by
    apply List.filterMap_eq_nil_iff.mpr
    intro ts' hts'
    have hf' := List.all_eq_true.mp hall ts' hts'
    cases ts' with
    | finished r => rfl
    | start => exact absurd hf' (by simp [isFinished])
    | allocated p => exact absurd hf' (by simp [isFinished])
  have howned : owned c = [c.heap.storage] := by
    simp [owned, installedList, hsne, hspec]
  rw [howned] at h1
  exact List.perm_singleton.mp h1

/-- Witness for C2 at a concrete input: two threads, a schedule in which
both allocate speculatively and thread 0 wins the compare-exchange. -/
theorem atomic_boxed_init_one_retained_witness :
    (run (Config.initial 2) [0, 1, 0, 1]).heap.storage ≠ 0 ∧
    (run (Config.initial 2) [0, 1, 0, 1]).heap.live =
      [(run (Config.initial 2) [0, 1, 0, 1]).heap.storage] :=
  (atomic_boxed_init_one_retained 2 [0, 1, 0, 1] (by decide) (by decide)).2

end Compat

end Rust9x
